import Mathlib

/-!
# Calibration record of `soft/t_u_REV/TU_calibration.h`

Shallow embedding of `TU::CalibrationData` (its flag accessors) and of the
`CalibrationStorage` page storage the header instantiates.

Machine integers are natural numbers; `uint32_t` results are reduced modulo
`2 ^ 32` wherever the C++ operator could leave the 32-bit range.
-/

namespace TU

/-! ## `enum CalibrationFlags` and `struct CalibrationData` -/

/-- Enumerator `CALIBRATION_FLAG_ENCODERS_REVERSED = (0x1 << 0)`. -/
def CALIBRATION_FLAG_ENCODERS_REVERSED : Nat := 0x1 <<< 0

/-- Number of values of a `uint32_t`. -/
def UINT32_MOD : Nat := 2 ^ 32

/-- Operator `~` on a `uint32_t` operand: the 32-bit complement. -/
def not32 (x : Nat) : Nat := UINT32_MOD - 1 - x % UINT32_MOD

/-- The record `struct CalibrationData`. The types `OUTPUTS::CalibrationData` and
`ADC::CalibrationData` of the first two fields are declared in headers that are
only included here, so they are parameters. Field order follows the source. -/
structure CalibrationData (DAC ADC : Type) where
  dac : DAC
  adc : ADC
  display_offset : Nat
  flags : Nat
  reserved0 : Nat
  reserved1 : Nat
deriving DecidableEq, Repr

variable {DAC ADC : Type}

/-- Method `bool encoders_reversed() const`: `return flags & CALIBRATION_FLAG_ENCODERS_REVERSED;`.
The conversion of the `uint32_t` value to `bool` is the test against zero. The
method is written in state-passing form: the first component is the returned
`bool`, the second the record after the call (the method is `const`). -/
def encoders_reversed (self : CalibrationData DAC ADC) : Bool × CalibrationData DAC ADC :=
  (decide (self.flags &&& CALIBRATION_FLAG_ENCODERS_REVERSED ≠ 0), self)

/-- Method `void reverse_encoders()`:
```
if (flags & CALIBRATION_FLAG_ENCODERS_REVERSED)
  flags &= ~flags & CALIBRATION_FLAG_ENCODERS_REVERSED;
else
  flags |= CALIBRATION_FLAG_ENCODERS_REVERSED;
```
Unary `~` binds tighter than `&`, and `&=` is applied last, so the first branch
stores `flags & ((~flags) & CALIBRATION_FLAG_ENCODERS_REVERSED)`. -/
def reverse_encoders (self : CalibrationData DAC ADC) : CalibrationData DAC ADC :=
  if self.flags &&& CALIBRATION_FLAG_ENCODERS_REVERSED ≠ 0 then
    { self with
      flags := (self.flags &&& (not32 self.flags &&& CALIBRATION_FLAG_ENCODERS_REVERSED))
                 % UINT32_MOD }
  else
    { self with flags := (self.flags ||| CALIBRATION_FLAG_ENCODERS_REVERSED) % UINT32_MOD }

/-! ## Sample records -/

/-- Record with `flags = 0x3` (the encoder flag and one further bit set), all
other fields zero, over unit calibration sub-structures. -/
def sampleFlags3 : CalibrationData Unit Unit :=
  { dac := (), adc := (), display_offset := 0, flags := 0x3, reserved0 := 0, reserved1 := 0 }

/-- Record with `flags = 0x6` (the encoder flag clear, two further bits set). -/
def sampleFlags6 : CalibrationData Unit Unit :=
  { dac := (), adc := (), display_offset := 0, flags := 0x6, reserved0 := 0, reserved1 := 0 }

/-- Record with `flags = 0xFFFFFFF1` and a non-zero `display_offset`. -/
def sampleFlagsHigh : CalibrationData Unit Unit :=
  { dac := (), adc := (), display_offset := 9, flags := 0xFFFFFFF1, reserved0 := 4,
    reserved1 := 5 }

/-! ## `PageStorage` and the `CalibrationStorage` instance

`src/util_pagestorage.h` and `util/EEPROMStorage.h` are only included by the
header, so the engine below follows sections 3, 4.2, 4.3, 6 and 7 of the
specification. Sequence numbers are natural numbers (the specification calls
them monotonically increasing and gives no width). -/

/-- Modelled from the spec: the schema identity of section 4.4, "a fixed four-symbol
code plus an explicit numeric version", used as an opaque equality key. The
template `FOURCC` of the missing utility headers is what builds it. -/
structure SchemaId where
  tag : List Char
  version : Nat
deriving DecidableEq, Repr

/-- Constant `CalibrationData::FOURCC = FOURCC<'C', 'A', 'L', 1>::value`. -/
def CalibrationData.FOURCC : SchemaId := { tag := ['C', 'A', 'L'], version := 1 }

/-- Modelled from the spec: the slot header of section 3 (missing
`util_pagestorage.h`): schema identity, sequence number, integrity check. -/
structure SlotHeader where
  schema : SchemaId
  seq : Nat
  check : Nat
deriving DecidableEq, Repr

/-- Modelled from the spec: one slot of the medium (missing `util_pagestorage.h`):
a header and the stored payload. -/
structure Slot (R : Type) where
  header : SlotHeader
  payload : R

/-- Modelled from the spec: the medium as seen by the engine (missing
`util/EEPROMStorage.h`): the content of the `i`-th equal partition of
`[start, end)`, for every slot index `i`. -/
abbrev Medium (R : Type) := Nat → Slot R

/-- Modelled from the spec: the address-range configuration of section 6 together
with the two sizes that make up `slot_size` (missing `util_pagestorage.h`; the
constants `EEPROM_CALIBRATIONDATA_START` and `EEPROM_CALIBRATIONDATA_END` are in
the missing `TU_config.h`). -/
structure Layout where
  range_start : Nat
  range_end : Nat
  header_size : Nat
  record_size : Nat
deriving DecidableEq, Repr

/-- Modelled from the spec: `slot_size = header_size + serialized_record_size`
(section 3; missing `util_pagestorage.h`). -/
def Layout.slot_size (l : Layout) : Nat := l.header_size + l.record_size

/-- Modelled from the spec: `N = floor((end - start) / slot_size)` (section 3;
missing `util_pagestorage.h`). -/
def Layout.slotCount (l : Layout) : Nat := (l.range_end - l.range_start) / l.slot_size

/-- Modelled from the spec: the failure of the construction-time check of section 6
(missing `util_pagestorage.h`). -/
inductive ConstructionError where
  | RangeTooSmall
deriving DecidableEq, Repr

/-- Modelled from the spec: what `load` signals next to the record (sections 6
and 7; missing `util_pagestorage.h`). -/
inductive LoadSignal where
  | Loaded
  | NoValidRecord
deriving DecidableEq, Repr

/-- Modelled from the spec: the engine `PageStorage` (missing `util_pagestorage.h`),
parameterised by the address range, the record type, the expected schema, the
integrity check over a record and the default record. An engine exists only over
a range of at least two slots. -/
structure PageStorage (R : Type) where
  layout : Layout
  schema : SchemaId
  checksum : R → Nat
  fallback : R
  two_slots : 2 ≤ layout.slotCount

/-- Modelled from the spec: construction of the engine (section 6; missing
`util_pagestorage.h`): "the engine must fail fast (construction-time check) if the
range is too small to hold at least two slots". -/
def PageStorage.create {R : Type} (layout : Layout) (schema : SchemaId) (checksum : R → Nat)
    (fallback : R) : Except ConstructionError (PageStorage R) :=
  if h : 2 ≤ layout.slotCount then
    .ok { layout := layout, schema := schema, checksum := checksum, fallback := fallback,
          two_slots := h }
  else
    .error .RangeTooSmall

/-- Modelled from the spec: slot validity (section 3; missing `util_pagestorage.h`):
"a slot is valid iff its tag+version matches the expected schema and its integrity
check passes against its stored payload". The header leaves
`CALIBRATION_LOAD_LEGACY` undefined, so no legacy schema is supported and such
slots are invalid. -/
def PageStorage.valid {R : Type} (ps : PageStorage R) (s : Slot R) : Bool :=
  decide (s.header.schema = ps.schema) && decide (s.header.check = ps.checksum s.payload)

/-- Modelled from the spec: the scan of `load` (section 4.2; missing
`util_pagestorage.h`) over the slots `0 .. n-1`: the index of the valid slot with
the highest sequence number, if any slot is valid. -/
def selectLatest (ok : Nat → Bool) (seq : Nat → Nat) : Nat → Option Nat
  | 0 => none
  | n + 1 =>
    match selectLatest ok seq n with
    | none => if ok n then some n else none
    | some b => if ok n && decide (seq b < seq n) then some n else some b

/-- Modelled from the spec: `load` (sections 4.2 and 7; missing
`util_pagestorage.h`): the record of the valid slot with the highest sequence
number, or the default record with the signal `NoValidRecord`. -/
def PageStorage.load {R : Type} (ps : PageStorage R) (m : Medium R) : R × LoadSignal :=
  match selectLatest (fun i => ps.valid (m i)) (fun i => (m i).header.seq)
      ps.layout.slotCount with
  | some b => ((m b).payload, .Loaded)
  | none => (ps.fallback, .NoValidRecord)

/-- Modelled from the spec: "the maximum sequence number observed across all slots"
`0 .. n-1` (section 4.3; missing `util_pagestorage.h`). -/
def maxSeq (seq : Nat → Nat) : Nat → Nat
  | 0 => 0
  | n + 1 => max (maxSeq seq n) (seq n)

/-- Modelled from the spec: "the slot with the lowest sequence number" among the
slots `0 .. n-1` (section 4.3; missing `util_pagestorage.h`). The specification
leaves the tie-break open; the lowest index wins here. -/
def oldestSlot (seq : Nat → Nat) : Nat → Nat
  | 0 => 0
  | 1 => 0
  | n + 2 =>
    if seq (n + 1) < seq (oldestSlot seq (n + 1)) then n + 1 else oldestSlot seq (n + 1)

/-- Modelled from the spec: one write of header and payload to slot `t` (section
4.1; missing `util/EEPROMStorage.h`). -/
def writeSlot {R : Type} (m : Medium R) (t : Nat) (s : Slot R) : Medium R :=
  fun i => if i = t then s else m i

/-- Modelled from the spec: `save` (section 4.3; missing `util_pagestorage.h`): the
next sequence number is one more than the maximum over all slots, the target is
the slot with the lowest sequence number, and the record is written there with
the current schema and a freshly computed integrity check. The write succeeds. -/
def PageStorage.save {R : Type} (ps : PageStorage R) (m : Medium R) (r : R) : Medium R :=
  let seq := fun i => (m i).header.seq
  writeSlot m (oldestSlot seq ps.layout.slotCount)
    { header := { schema := ps.schema, seq := 1 + maxSeq seq ps.layout.slotCount,
                  check := ps.checksum r },
      payload := r }

/-- Modelled from the spec: the number `K` of valid slots among the `N` slots
(section 8; missing `util_pagestorage.h`). -/
def PageStorage.validCount {R : Type} (ps : PageStorage R) (m : Medium R) : Nat :=
  ((List.range ps.layout.slotCount).filter (fun i => ps.valid (m i))).length

/-- The typedef `CalibrationStorage`: `PageStorage` over the range
`[EEPROM_CALIBRATIONDATA_START, EEPROM_CALIBRATIONDATA_END)` and `CalibrationData`.
The two constants (missing `TU_config.h`), the two sizes, the integrity check and
the default record are parameters. -/
def CalibrationStorage (EEPROM_CALIBRATIONDATA_START EEPROM_CALIBRATIONDATA_END : Nat)
    (header_size record_size : Nat) (checksum : CalibrationData DAC ADC → Nat)
    (fallback : CalibrationData DAC ADC) :
    Except ConstructionError (PageStorage (CalibrationData DAC ADC)) :=
  PageStorage.create
    { range_start := EEPROM_CALIBRATIONDATA_START, range_end := EEPROM_CALIBRATIONDATA_END,
      header_size := header_size, record_size := record_size }
    CalibrationData.FOURCC checksum fallback

/-! ## Sample storage states -/

/-- Integrity check used in the sample storage: a sum of the scalar fields. -/
def sampleChecksum (c : CalibrationData Unit Unit) : Nat :=
  (c.display_offset + c.flags + c.reserved0 + c.reserved1) % 65536

/-- Default record used in the sample storage: all fields zero. -/
def sampleFallback : CalibrationData Unit Unit :=
  { dac := (), adc := (), display_offset := 0, flags := 0, reserved0 := 0, reserved1 := 0 }

/-- Sample engine over the range `[0, 256)` with slots of `12 + 52 = 64` bytes,
hence `N = 4` slots. -/
def sampleStorage : PageStorage (CalibrationData Unit Unit) :=
  { layout := { range_start := 0, range_end := 256, header_size := 12, record_size := 52 },
    schema := CalibrationData.FOURCC, checksum := sampleChecksum, fallback := sampleFallback,
    two_slots := by decide }

/-- Medium on which no slot was ever written: every slot holds a foreign tag. -/
def blankMedium : Medium (CalibrationData Unit Unit) :=
  fun _ => { header := { schema := { tag := [], version := 0 }, seq := 0xFFFFFFFF,
                         check := 0xFFFF },
             payload := sampleFallback }

/-- Medium with `K = 2` valid slots out of `N = 4`: slot 0 is valid with sequence
number 7, slot 1 has a foreign version in its header (sequence number 9), slot 2
is valid with sequence number 8, slot 3 has a payload that fails the integrity
check (sequence number 10). -/
def mixedMedium : Medium (CalibrationData Unit Unit) :=
  fun i =>
    if i = 0 then
      { header := { schema := CalibrationData.FOURCC, seq := 7, check := 3 },
        payload := sampleFlags3 }
    else if i = 1 then
      { header := { schema := { tag := ['C', 'A', 'L'], version := 2 }, seq := 9, check := 6 },
        payload := sampleFlags6 }
    else if i = 2 then
      { header := { schema := CalibrationData.FOURCC, seq := 8, check := 6 },
        payload := sampleFlags6 }
    else
      { header := { schema := CalibrationData.FOURCC, seq := 10, check := 6 },
        payload := sampleFlagsHigh }

/-- Five records saved one after the other into the sample storage. -/
def sampleSaves : List (CalibrationData Unit Unit) :=
  [sampleFlags3, sampleFlags6, sampleFallback, sampleFlags3, sampleFlagsHigh]

/-! ## Lemmas on the flag arithmetic -/

theorem flag_value : CALIBRATION_FLAG_ENCODERS_REVERSED = 1 := by decide

theorem not32_mod_two (x : Nat) : not32 x % 2 = (x + 1) % 2 := by
  unfold not32 UINT32_MOD
  have h : x % 2 ^ 32 < 2 ^ 32 := Nat.mod_lt _ (by norm_num)
  have h2 : x % 2 ^ 32 % 2 = x % 2 :=
    Nat.mod_mod_of_dvd x (Dvd.intro (2 ^ 31) (by norm_num))
  omega

/-- In the branch taken when the flag is set, the right-hand side of `&=` is zero. -/
theorem clear_mask_zero (f : Nat) (h : f &&& CALIBRATION_FLAG_ENCODERS_REVERSED ≠ 0) :
    not32 f &&& CALIBRATION_FLAG_ENCODERS_REVERSED = 0 := by
  rw [flag_value, Nat.and_one_is_mod] at *
  rw [not32_mod_two]
  omega

theorem or_flag_mod_two (f : Nat) :
    ((f ||| CALIBRATION_FLAG_ENCODERS_REVERSED) % UINT32_MOD) % 2 = 1 := by
  have h2 : (f ||| 1) % 2 ^ 32 % 2 = (f ||| 1) % 2 :=
    Nat.mod_mod_of_dvd _ (Dvd.intro (2 ^ 31) (by norm_num))
  rw [flag_value]
  unfold UINT32_MOD
  rw [h2, Nat.or_mod_two_eq_one]
  right; rfl

theorem or_flag_lt (f : Nat) (h : f < UINT32_MOD) :
    f ||| CALIBRATION_FLAG_ENCODERS_REVERSED < UINT32_MOD := by
  rw [flag_value]
  exact Nat.or_lt_two_pow h (by norm_num)

/-- The flags stored by `reverse_encoders` when the flag was set. -/
theorem reverse_encoders_flags_of_set (c : CalibrationData DAC ADC)
    (h : c.flags &&& CALIBRATION_FLAG_ENCODERS_REVERSED ≠ 0) :
    (reverse_encoders c).flags = 0 := by
  unfold reverse_encoders
  rw [if_pos h]
  show (c.flags &&& (not32 c.flags &&& CALIBRATION_FLAG_ENCODERS_REVERSED)) % UINT32_MOD = 0
  rw [clear_mask_zero _ h]
  simp

/-- The flags stored by `reverse_encoders` when the flag was clear. -/
theorem reverse_encoders_flags_of_clear (c : CalibrationData DAC ADC)
    (h : c.flags &&& CALIBRATION_FLAG_ENCODERS_REVERSED = 0) :
    (reverse_encoders c).flags = (c.flags ||| CALIBRATION_FLAG_ENCODERS_REVERSED) % UINT32_MOD := by
  unfold reverse_encoders
  rw [if_neg (by simpa using h)]

/-- The `bool` returned by `encoders_reversed` is the parity of `flags`. -/
theorem encoders_reversed_fst (c : CalibrationData DAC ADC) :
    (encoders_reversed c).1 = decide (c.flags % 2 = 1) := by
  unfold encoders_reversed
  rw [flag_value, Nat.and_one_is_mod]
  have h : c.flags % 2 = 0 ∨ c.flags % 2 = 1 := by omega
  rcases h with h | h <;> simp [h]

theorem flag_set_iff_odd (f : Nat) :
    f &&& CALIBRATION_FLAG_ENCODERS_REVERSED ≠ 0 ↔ f % 2 = 1 := by
  rw [flag_value, Nat.and_one_is_mod]
  omega

/-- Flags after two consecutive calls of `reverse_encoders`. -/
theorem reverse_encoders_twice_flags (c : CalibrationData DAC ADC) :
    (reverse_encoders (reverse_encoders c)).flags = c.flags % 2 := by
  by_cases h : c.flags &&& CALIBRATION_FLAG_ENCODERS_REVERSED ≠ 0
  · have h1 := reverse_encoders_flags_of_set c h
    have h2 : (reverse_encoders c).flags &&& CALIBRATION_FLAG_ENCODERS_REVERSED = 0 := by
      rw [h1]; simp
    rw [reverse_encoders_flags_of_clear _ h2, h1]
    have := (flag_set_iff_odd c.flags).1 h
    rw [this]
    decide
  · have h0 : c.flags &&& CALIBRATION_FLAG_ENCODERS_REVERSED = 0 := by simpa using h
    have h1 := reverse_encoders_flags_of_clear c h0
    have h2 : (reverse_encoders c).flags &&& CALIBRATION_FLAG_ENCODERS_REVERSED ≠ 0 := by
      rw [flag_set_iff_odd, h1]
      exact or_flag_mod_two c.flags
    rw [reverse_encoders_flags_of_set _ h2]
    have := (flag_set_iff_odd c.flags).not.1 h
    omega

/-! ## Lemmas on the storage engine -/

theorem maxSeq_ge (seq : Nat → Nat) (n i : Nat) (h : i < n) : seq i ≤ maxSeq seq n := by
  induction n with
  | zero => omega
  | succ n ih =>
    simp only [maxSeq]
    by_cases hi : i = n
    · subst hi
      exact le_max_right _ _
    · exact le_trans (ih (by omega)) (le_max_left _ _)

theorem oldestSlot_lt (seq : Nat → Nat) (n : Nat) (h : 0 < n) : oldestSlot seq n < n := by
  induction n with
  | zero => omega
  | succ n ih =>
    cases n with
    | zero => simp [oldestSlot]
    | succ k =>
      simp only [oldestSlot]
      split
      · omega
      · have := ih (by omega)
        omega

theorem oldestSlot_le (seq : Nat → Nat) (n i : Nat) (h : i < n) :
    seq (oldestSlot seq n) ≤ seq i := by
  induction n with
  | zero => omega
  | succ n ih =>
    cases n with
    | zero =>
      have : i = 0 := by omega
      subst this
      simp [oldestSlot]
    | succ k =>
      simp only [oldestSlot]
      by_cases hi : i = k + 1
      · subst hi
        split <;> omega
      · have := ih (by omega)
        split <;> omega

theorem selectLatest_none (ok : Nat → Bool) (seq : Nat → Nat) (n : Nat) :
    selectLatest ok seq n = none ↔ ∀ i, i < n → ok i = false := by
  induction n with
  | zero => simp [selectLatest]
  | succ n ih =>
    cases hs : selectLatest ok seq n with
    | none =>
      have hall := ih.1 hs
      simp only [selectLatest, hs]
      cases hn : ok n with
      | true =>
        simp only [if_true]
        constructor
        · intro h; cases h
        · intro h
          have := h n (by omega)
          rw [hn] at this
          cases this
      | false =>
        simp only [Bool.false_eq_true, if_false, true_iff]
        intro i hi
        by_cases hin : i = n
        · subst hin; exact hn
        · exact hall i (by omega)
    | some b =>
      have hne : ¬ ∀ i, i < n → ok i = false := by
        intro h
        have := ih.2 h
        rw [hs] at this
        cases this
      simp only [selectLatest, hs]
      constructor
      · intro h
        split at h <;> cases h
      · intro h
        exact absurd (fun i hi => h i (by omega)) hne

theorem selectLatest_some (ok : Nat → Bool) (seq : Nat → Nat) (n b : Nat)
    (h : selectLatest ok seq n = some b) :
    b < n ∧ ok b = true ∧ ∀ i, i < n → ok i = true → seq i ≤ seq b := by
  induction n generalizing b with
  | zero => simp [selectLatest] at h
  | succ n ih =>
    cases hs : selectLatest ok seq n with
    | none =>
      simp only [selectLatest, hs] at h
      have hall := (selectLatest_none ok seq n).1 hs
      cases hn : ok n with
      | true =>
        rw [hn] at h
        simp only [if_true, Option.some.injEq] at h
        subst h
        refine ⟨by omega, hn, ?_⟩
        intro i hi hok
        by_cases hin : i = n
        · subst hin; exact le_refl _
        · have := hall i (by omega)
          rw [hok] at this
          cases this
      | false =>
        rw [hn] at h
        simp at h
    | some c =>
      simp only [selectLatest, hs] at h
      obtain ⟨hc, hokc, hmax⟩ := ih c hs
      by_cases hcond : (ok n && decide (seq c < seq n)) = true
      · rw [if_pos hcond, Option.some.injEq] at h
        subst h
        simp only [Bool.and_eq_true, decide_eq_true_eq] at hcond
        refine ⟨by omega, hcond.1, ?_⟩
        intro i hi hok
        by_cases hin : i = n
        · subst hin; exact le_refl _
        · have := hmax i (by omega) hok
          omega
      · rw [if_neg hcond, Option.some.injEq] at h
        subst h
        refine ⟨by omega, hokc, ?_⟩
        intro i hi hok
        by_cases hin : i = n
        · subst hin
          simp only [Bool.and_eq_true, decide_eq_true_eq, not_and, not_lt] at hcond
          exact hcond hok
        · exact hmax i (by omega) hok

/-- The slot written by `save` is valid, and `load` right after `save` returns the
saved record. -/
theorem load_save {R : Type} (ps : PageStorage R) (m : Medium R) (r : R) :
    ps.load (ps.save m r) = (r, LoadSignal.Loaded) := by
  have hN : 0 < ps.layout.slotCount := lt_of_lt_of_le (by norm_num) ps.two_slots
  set seq := fun i => (m i).header.seq with hseq
  set t := oldestSlot seq ps.layout.slotCount with ht
  have htN : t < ps.layout.slotCount := oldestSlot_lt seq _ hN
  set m2 := ps.save m r with hm2
  have hat : m2 t = { header := { schema := ps.schema,
                                  seq := 1 + maxSeq seq ps.layout.slotCount,
                                  check := ps.checksum r },
                      payload := r } := by
    simp [hm2, PageStorage.save, writeSlot, ← hseq, ← ht]
  have hoff : ∀ i, i ≠ t → m2 i = m i := by
    intro i hi
    simp [hm2, PageStorage.save, writeSlot, ← hseq, ← ht, hi]
  have hvalid : ps.valid (m2 t) = true := by
    rw [hat]
    simp [PageStorage.valid]
  unfold PageStorage.load
  cases hsel : selectLatest (fun i => ps.valid (m2 i)) (fun i => (m2 i).header.seq)
      ps.layout.slotCount with
  | none =>
    have := (selectLatest_none _ _ _).1 hsel t htN
    simp only at this
    rw [hvalid] at this
    cases this
  | some b =>
    obtain ⟨hb, _, hmax⟩ := selectLatest_some _ _ _ b hsel
    have hle := hmax t htN hvalid
    simp only at hle
    have hbt : b = t := by
      by_contra hne
      rw [hat, hoff b hne] at hle
      have := maxSeq_ge seq ps.layout.slotCount b hb
      simp only [hseq] at this hle
      omega
    subst hbt
    simp only [hat]

theorem foldl_save_snoc {R : Type} (ps : PageStorage R) (m : Medium R) (rs : List R) (r : R) :
    (rs ++ [r]).foldl ps.save m = ps.save (rs.foldl ps.save m) r := by
  simp [List.foldl_append]

/-- After any non-empty sequence of saves, `load` returns the last saved record. -/
theorem load_after_saves {R : Type} (ps : PageStorage R) (m : Medium R) (rs : List R) (r : R)
    (hlast : rs.getLast? = some r) :
    ps.load (rs.foldl ps.save m) = (r, LoadSignal.Loaded) := by
  rcases List.eq_nil_or_concat rs with hnil | ⟨init, last, hrs⟩
  · subst hnil
    simp at hlast
  · subst hrs
    rw [List.concat_eq_append] at hlast ⊢
    rw [List.getLast?_append] at hlast
    simp at hlast
    subst hlast
    rw [foldl_save_snoc, load_save]

theorem validCount_pos {R : Type} (ps : PageStorage R) (m : Medium R)
    (h : 1 ≤ ps.validCount m) : ∃ i, i < ps.layout.slotCount ∧ ps.valid (m i) = true := by
  unfold PageStorage.validCount at h
  obtain ⟨i, hi⟩ := List.exists_mem_of_length_pos h
  rw [List.mem_filter, List.mem_range] at hi
  exact ⟨i, hi.1, hi.2⟩

theorem validCount_zero {R : Type} (ps : PageStorage R) (m : Medium R)
    (h : ps.validCount m = 0) : ∀ i, i < ps.layout.slotCount → ps.valid (m i) = false := by
  unfold PageStorage.validCount at h
  intro i hi
  have hnil := List.length_eq_zero.1 h
  rw [List.filter_eq_nil_iff] at hnil
  have := hnil i (List.mem_range.2 hi)
  simpa using this

theorem validCount_le {R : Type} (ps : PageStorage R) (m : Medium R) :
    ps.validCount m ≤ ps.layout.slotCount := by
  unfold PageStorage.validCount
  calc ((List.range ps.layout.slotCount).filter (fun i => ps.valid (m i))).length
      ≤ (List.range ps.layout.slotCount).length := List.length_filter_le _ _
    _ = ps.layout.slotCount := List.length_range _

/-! ## Claims on the flag accessors -/

/-- C1, evaluated on the code: starting from `flags = 0x3`, two consecutive calls of
`reverse_encoders` leave `flags = 0x1`, which is not the original value. -/
theorem C1_reverse_encoders_twice_at_three :
    (reverse_encoders (reverse_encoders sampleFlags3)).flags = 0x1 ∧
      (reverse_encoders (reverse_encoders sampleFlags3)).flags ≠ sampleFlags3.flags := by
  decide

/-- C2, evaluated on the code: starting from `flags = 0x3`, one call of
`reverse_encoders` stores `flags = 0`, so bit 1 (mask `0x2`), which is not the
encoder flag, was set before the call and is clear after it. -/
theorem C2_reverse_encoders_clears_other_bit :
    (reverse_encoders sampleFlags3).flags = 0 ∧
      sampleFlags3.flags.testBit 1 = true ∧
      (reverse_encoders sampleFlags3).flags.testBit 1 = false := by
  decide

/-- C3: for every record, `encoders_reversed()` evaluated after one call of
`reverse_encoders()` is the negation of `encoders_reversed()` evaluated before it. -/
theorem C3_reverse_encoders_toggles (c : CalibrationData DAC ADC) :
    (encoders_reversed (reverse_encoders c)).1 = !(encoders_reversed c).1 := by
  rw [encoders_reversed_fst, encoders_reversed_fst]
  by_cases h : c.flags &&& CALIBRATION_FLAG_ENCODERS_REVERSED ≠ 0
  · rw [reverse_encoders_flags_of_set c h]
    have := (flag_set_iff_odd c.flags).1 h
    simp [this]
  · have h0 : c.flags &&& CALIBRATION_FLAG_ENCODERS_REVERSED = 0 := by simpa using h
    rw [reverse_encoders_flags_of_clear c h0, or_flag_mod_two]
    have := (flag_set_iff_odd c.flags).not.1 h
    simp [this]

/-- C4: `encoders_reversed()` returns true exactly when bit 0 of `flags` is set; any
record whose `flags` agree with it on bit 0 gives the same result, whatever its
other fields and flag bits hold; and the call leaves the record unchanged. -/
theorem C4_encoders_reversed_by_mask (c : CalibrationData DAC ADC) :
    ((encoders_reversed c).1 = true ↔ c.flags.testBit 0 = true) ∧
      (∀ d : CalibrationData DAC ADC, d.flags.testBit 0 = c.flags.testBit 0 →
        (encoders_reversed d).1 = (encoders_reversed c).1) ∧
      (encoders_reversed c).2 = c := by
  refine ⟨?_, ?_, rfl⟩
  · rw [encoders_reversed_fst, Nat.testBit_zero]
  · intro d hd
    rw [encoders_reversed_fst, encoders_reversed_fst, ← Nat.testBit_zero, ← Nat.testBit_zero, hd]

/-- C4 at two records that agree on bit 0 only: `flags = 0x3` with zero fields and
`flags = 0xFFFFFFF1` with non-zero fields both report reversed encoders. -/
theorem C4_encoders_reversed_by_mask_witness :
    sampleFlagsHigh.flags.testBit 0 = sampleFlags3.flags.testBit 0 ∧
      (encoders_reversed sampleFlagsHigh).1 = (encoders_reversed sampleFlags3).1 ∧
      (encoders_reversed sampleFlags3).1 = true :=
  ⟨by decide,
   (C4_encoders_reversed_by_mask sampleFlags3).2.1 sampleFlagsHigh (by decide),
   (C4_encoders_reversed_by_mask sampleFlags3).1.2 (by decide)⟩

/-- C8: `reverse_encoders()` changes no field other than `flags`: `dac`, `adc`,
`display_offset`, `reserved0` and `reserved1` are the same after the call. -/
theorem C8_reverse_encoders_frame (c : CalibrationData DAC ADC) :
    (reverse_encoders c).dac = c.dac ∧ (reverse_encoders c).adc = c.adc ∧
      (reverse_encoders c).display_offset = c.display_offset ∧
      (reverse_encoders c).reserved0 = c.reserved0 ∧
      (reverse_encoders c).reserved1 = c.reserved1 := by
  unfold reverse_encoders
  split <;> exact ⟨rfl, rfl, rfl, rfl, rfl⟩

/-- C9: for a 32-bit `flags` value, when the encoder flag is set `reverse_encoders()`
stores `flags = 0` (the right-hand side `(~flags) & 0x1` is zero), so every bit of
`flags` is clear afterwards; when the flag is clear it stores `flags | 0x1`. -/
theorem C9_reverse_encoders_stores (c : CalibrationData DAC ADC)
    (hf : c.flags < UINT32_MOD) :
    (c.flags &&& CALIBRATION_FLAG_ENCODERS_REVERSED ≠ 0 →
        not32 c.flags &&& 0x1 = 0 ∧ (reverse_encoders c).flags = 0 ∧
          ∀ i, (reverse_encoders c).flags.testBit i = false) ∧
      (c.flags &&& CALIBRATION_FLAG_ENCODERS_REVERSED = 0 →
        (reverse_encoders c).flags = c.flags ||| 0x1) := by
  constructor
  · intro h
    have h1 := reverse_encoders_flags_of_set c h
    refine ⟨?_, h1, ?_⟩
    · have := clear_mask_zero _ h
      rwa [flag_value] at this
    · intro i
      rw [h1]
      exact Nat.zero_testBit i
  · intro h
    rw [reverse_encoders_flags_of_clear c h, Nat.mod_eq_of_lt (or_flag_lt _ hf), flag_value]

/-- C9 at `flags = 0x3` (flag set, result `0`) and at `flags = 0x6` (flag clear,
result `0x7`). -/
theorem C9_reverse_encoders_stores_witness :
    sampleFlags3.flags < UINT32_MOD ∧ sampleFlags6.flags < UINT32_MOD ∧
      (reverse_encoders sampleFlags3).flags = 0 ∧
      (reverse_encoders sampleFlags6).flags = 0x7 :=
  ⟨by decide, by decide,
   ((C9_reverse_encoders_stores sampleFlags3 (by decide)).1 (by decide)).2.1,
   (C9_reverse_encoders_stores sampleFlags6 (by decide)).2 (by decide)⟩

/-- C10: two consecutive calls of `reverse_encoders()` yield `flags = f & 0x1`, where
`f` is the original value; the original value is restored exactly when `f` is
`0` or `1`. -/
theorem C10_reverse_encoders_twice (c : CalibrationData DAC ADC) :
    (reverse_encoders (reverse_encoders c)).flags = c.flags &&& 0x1 ∧
      ((reverse_encoders (reverse_encoders c)).flags = c.flags ↔
        (c.flags = 0 ∨ c.flags = 1)) := by
  rw [reverse_encoders_twice_flags, Nat.and_one_is_mod]
  refine ⟨rfl, ?_⟩
  omega

/-! ## Claims on the storage engine -/

theorem create_ok_fields {R : Type} (layout : Layout) (schema : SchemaId) (checksum : R → Nat)
    (fallback : R) (ps : PageStorage R)
    (h : PageStorage.create layout schema checksum fallback = .ok ps) :
    ps.layout = layout ∧ ps.schema = schema ∧ ps.fallback = fallback := by
  unfold PageStorage.create at h
  split at h
  · injection h with h
    subst h
    exact ⟨rfl, rfl, rfl⟩
  · cases h

/-- Construction succeeds on every range of at least two slots. -/
theorem create_ok {R : Type} (layout : Layout) (schema : SchemaId) (checksum : R → Nat)
    (fallback : R) (h : 2 ≤ layout.slotCount) :
    ∃ ps, PageStorage.create layout schema checksum fallback = .ok ps := by
  unfold PageStorage.create
  rw [dif_pos h]
  exact ⟨_, rfl⟩

/-- C5: for a `CalibrationStorage` over a range of `N` slots and any medium content,
after `N + 1` consecutive saves the record returned by `load` is the record passed
to the last save, and `load` signals a loaded record. -/
theorem C5_load_after_slot_wraparound
    (EEPROM_CALIBRATIONDATA_START EEPROM_CALIBRATIONDATA_END header_size record_size : Nat)
    (checksum : CalibrationData DAC ADC → Nat) (fallback : CalibrationData DAC ADC)
    (ps : PageStorage (CalibrationData DAC ADC))
    (hps : CalibrationStorage EEPROM_CALIBRATIONDATA_START EEPROM_CALIBRATIONDATA_END
      header_size record_size checksum fallback = .ok ps)
    (m : Medium (CalibrationData DAC ADC)) (rs : List (CalibrationData DAC ADC))
    (hlen : rs.length =
      (EEPROM_CALIBRATIONDATA_END - EEPROM_CALIBRATIONDATA_START) / (header_size + record_size)
        + 1) :
    rs.getLast? = some (ps.load (rs.foldl ps.save m)).1 ∧
      (ps.load (rs.foldl ps.save m)).2 = LoadSignal.Loaded := by
  have hlayout := (create_ok_fields _ _ _ _ ps hps).1
  have hslots : rs.length = ps.layout.slotCount + 1 := by
    rw [hlayout]
    exact hlen
  have hne : rs ≠ [] := by
    intro h
    rw [h] at hslots
    simp at hslots
  have hlast : rs.getLast? = some (rs.getLast hne) := List.getLast?_eq_getLast rs hne
  rw [load_after_saves ps m rs _ hlast]
  exact ⟨hlast, rfl⟩

/-- C5 on the sample storage (`N = 4`): after the five saves of `sampleSaves` on the
blank medium, `load` returns the fifth record. -/
theorem C5_load_after_slot_wraparound_witness :
    sampleSaves.length = (256 - 0) / (12 + 52) + 1 ∧
      sampleSaves.getLast? =
        some (sampleStorage.load (sampleSaves.foldl sampleStorage.save blankMedium)).1 ∧
      (sampleStorage.load (sampleSaves.foldl sampleStorage.save blankMedium)).2
        = LoadSignal.Loaded :=
  ⟨by decide,
   C5_load_after_slot_wraparound 0 256 12 52 sampleChecksum sampleFallback sampleStorage rfl
     blankMedium sampleSaves (by decide)⟩

/-- C6: for a `CalibrationStorage` with `N` slots of which `K` are valid, when
`1 ≤ K ≤ N` `load` returns the record of a valid slot whose sequence number is the
highest among the valid slots; when `K = 0` it returns the default record and
signals `NoValidRecord`. -/
theorem C6_load_corruption_tolerance
    (EEPROM_CALIBRATIONDATA_START EEPROM_CALIBRATIONDATA_END header_size record_size : Nat)
    (checksum : CalibrationData DAC ADC → Nat) (fallback : CalibrationData DAC ADC)
    (ps : PageStorage (CalibrationData DAC ADC))
    (hps : CalibrationStorage EEPROM_CALIBRATIONDATA_START EEPROM_CALIBRATIONDATA_END
      header_size record_size checksum fallback = .ok ps)
    (m : Medium (CalibrationData DAC ADC)) :
    (∀ K, ps.validCount m = K → 1 ≤ K → K ≤ ps.layout.slotCount →
        ∃ b, b < ps.layout.slotCount ∧ ps.valid (m b) = true ∧
          (∀ i, i < ps.layout.slotCount → ps.valid (m i) = true →
            (m i).header.seq ≤ (m b).header.seq) ∧
          ps.load m = ((m b).payload, LoadSignal.Loaded)) ∧
      (ps.validCount m = 0 → ps.load m = (fallback, LoadSignal.NoValidRecord)) := by
  have hfb := (create_ok_fields _ _ _ _ ps hps).2.2
  constructor
  · intro K hK h1 _
    obtain ⟨j, hj, hvj⟩ := validCount_pos ps m (by omega)
    unfold PageStorage.load
    cases hsel : selectLatest (fun i => ps.valid (m i)) (fun i => (m i).header.seq)
        ps.layout.slotCount with
    | none =>
      have := (selectLatest_none _ _ _).1 hsel j hj
      simp only at this
      rw [hvj] at this
      cases this
    | some b =>
      obtain ⟨hb, hvb, hmax⟩ := selectLatest_some _ _ _ b hsel
      exact ⟨b, hb, hvb, hmax, rfl⟩
  · intro h0
    have hall := validCount_zero ps m h0
    have hsel := (selectLatest_none (fun i => ps.valid (m i)) (fun i => (m i).header.seq)
      ps.layout.slotCount).2 hall
    unfold PageStorage.load
    rw [hsel, hfb]

/-- C6 on the sample storage: with two valid and two corrupted slots `load` returns
the valid record with sequence number 8; on the blank medium it returns the
default record and signals `NoValidRecord`. -/
theorem C6_load_corruption_tolerance_witness :
    sampleStorage.validCount mixedMedium = 2 ∧
      sampleStorage.load mixedMedium = (sampleFlags6, LoadSignal.Loaded) ∧
      (∃ b, b < sampleStorage.layout.slotCount ∧ sampleStorage.valid (mixedMedium b) = true ∧
        (∀ i, i < sampleStorage.layout.slotCount → sampleStorage.valid (mixedMedium i) = true →
          (mixedMedium i).header.seq ≤ (mixedMedium b).header.seq) ∧
        sampleStorage.load mixedMedium = ((mixedMedium b).payload, LoadSignal.Loaded)) ∧
      sampleStorage.validCount blankMedium = 0 ∧
      sampleStorage.load blankMedium = (sampleFallback, LoadSignal.NoValidRecord) :=
  ⟨by decide, by decide,
   (C6_load_corruption_tolerance 0 256 12 52 sampleChecksum sampleFallback sampleStorage rfl
     mixedMedium).1 2 (by decide) (by decide) (by decide),
   by decide,
   (C6_load_corruption_tolerance 0 256 12 52 sampleChecksum sampleFallback sampleStorage rfl
     blankMedium).2 (by decide)⟩

/-- C7: constructing the engine over `[start, end)` fails with `RangeTooSmall`
whenever `floor((end - start) / slot_size) < 2`, for `PageStorage` over any record
type and for `CalibrationStorage` over the calibration range. -/
theorem C7_construction_fails_below_two_slots {R : Type}
    (range_start range_end header_size record_size : Nat)
    (h : (range_end - range_start) / (header_size + record_size) < 2)
    (schema : SchemaId) (checksum : R → Nat) (fallback : R)
    (cal_checksum : CalibrationData DAC ADC → Nat) (cal_fallback : CalibrationData DAC ADC) :
    PageStorage.create
        { range_start := range_start, range_end := range_end, header_size := header_size,
          record_size := record_size } schema checksum fallback
        = .error ConstructionError.RangeTooSmall ∧
      CalibrationStorage range_start range_end header_size record_size cal_checksum cal_fallback
        = .error ConstructionError.RangeTooSmall := by
  have hn : ¬ 2 ≤ Layout.slotCount
      { range_start := range_start, range_end := range_end, header_size := header_size,
        record_size := record_size } := by
    simp only [Layout.slotCount, Layout.slot_size]
    omega
  constructor
  · unfold PageStorage.create
    rw [dif_neg hn]
  · unfold CalibrationStorage PageStorage.create
    rw [dif_neg hn]

/-- C7 on the range `[0, 100)` with slots of `12 + 52 = 64` bytes: one slot fits, and
construction fails. -/
theorem C7_construction_fails_below_two_slots_witness :
    (100 - 0) / (12 + 52) < 2 ∧
      PageStorage.create
        { range_start := 0, range_end := 100, header_size := 12, record_size := 52 }
        CalibrationData.FOURCC sampleChecksum sampleFallback
        = .error ConstructionError.RangeTooSmall ∧
      CalibrationStorage 0 100 12 52 sampleChecksum sampleFallback
        = .error ConstructionError.RangeTooSmall :=
  ⟨by decide,
   C7_construction_fails_below_two_slots 0 100 12 52 (by decide) CalibrationData.FOURCC
     sampleChecksum sampleFallback sampleChecksum sampleFallback⟩

end TU
